import Mathlib

/-!
Verification development for `util/reactor/src/lib.rs` (Tokio Core Reactor
wrapper): the mode-polymorphic dispatcher `Remote`, the `timeout` racing
combinator, the `EventLoopHandle` lifecycle protocol, and `EventLoop::spawn`.

The embedding is shallow:
* Futures-0.1 polling of the `timeout` combinator is modelled as a
  deterministic state machine polled once per discrete tick (`pollTimeout`),
  driven from tick 0 (`runTimeout`).  A work unit is characterised by the
  number of ticks between the factory invocation and readiness; the delay
  branch is ready once `duration` ticks have elapsed since construction.
* `Remote::spawn` / `spawn_fn` are modelled as functions from a caller-visible
  state to a `Dispatch`: the caller state at the moment the call returns plus
  the list of effects deferred to the engine or freshly spawned threads.
* `EventLoopHandle` is a pair of option slots; `drop`, `wait` and `close`
  produce the event traces (signal sends, thread joins) the Rust code emits,
  with Rust's end-of-scope drop of consumed receivers made explicit.
* `EventLoop::spawn` is modelled on an abstract engine constructor
  `Except String E`; a panic (`expect` failure) is the absence of a result.
-/

namespace Reactor

deriving instance DecidableEq for Except

/-- State of one `timeout f duration on_timeout` future
(`future::lazy(f).select(Delay::new(now + duration).then(on_timeout)).then(|_| Ok(()))`)
as observed across polls.  `factoryTick` records the tick at which
`future::lazy` invoked the factory `f`; `resolved` the tick at which the
combined future became ready; `winnerIsWork` which branch won the select;
`outcome` the value the combined future resolved with. -/
structure TimeoutState where
  factoryCount : Nat
  factoryTick : Option Nat
  onTimeoutCount : Nat
  workPolls : Nat
  delayPolls : Nat
  resolved : Option Nat
  winnerIsWork : Option Bool
  outcome : Option (Except Unit Unit)
  deriving Repr, DecidableEq

/-- The state before the first poll: nothing invoked, nothing resolved. -/
def initState : TimeoutState :=
  { factoryCount := 0, factoryTick := none, onTimeoutCount := 0,
    workPolls := 0, delayPolls := 0, resolved := none,
    winnerIsWork := none, outcome := none }

/-- One poll, at tick `n`, of the future built by `timeout` in
`src/util/reactor/src/lib.rs` (lines 99-114), for a work unit that becomes
ready `w` ticks after its factory is invoked and a delay of `d` ticks
(the `Delay` deadline is `Instant::now() + duration`, i.e. tick `d`, since
the combinator is constructed at tick 0).

* a future that has resolved is dropped and never polled again;
* `future::lazy(f)` invokes `f` at its first poll;
* `Select` polls its first operand (the work branch) first and, if that is
  not ready, polls the second (the delay branch, whose `then` closure runs
  `on_timeout` when the delay fires);
* the final `.then(|_| Ok(()))` discards either branch's result and error
  and resolves with `Ok(())`. -/
def pollTimeout (w d : Nat) (s : TimeoutState) (n : Nat) : TimeoutState :=
  if s.resolved.isSome then s
  else
    let fc := if s.factoryTick.isNone then s.factoryCount + 1 else s.factoryCount
    let ft := if s.factoryTick.isNone then some n else s.factoryTick
    let start := ft.getD n
    if start + w ≤ n then
      { factoryCount := fc, factoryTick := ft, onTimeoutCount := s.onTimeoutCount,
        workPolls := s.workPolls + 1, delayPolls := s.delayPolls,
        resolved := some n, winnerIsWork := some true,
        outcome := some (Except.ok ()) }
    else if d ≤ n then
      { factoryCount := fc, factoryTick := ft, onTimeoutCount := s.onTimeoutCount + 1,
        workPolls := s.workPolls + 1, delayPolls := s.delayPolls + 1,
        resolved := some n, winnerIsWork := some false,
        outcome := some (Except.ok ()) }
    else
      { factoryCount := fc, factoryTick := ft, onTimeoutCount := s.onTimeoutCount,
        workPolls := s.workPolls + 1, delayPolls := s.delayPolls + 1,
        resolved := s.resolved, winnerIsWork := s.winnerIsWork,
        outcome := s.outcome }

/-- Drive the `timeout` future for `k` polls, at ticks `0, 1, ..., k-1`
(the executor, or `Future::wait`, polls it at every tick until it
resolves; once resolved it is dropped and later ticks change nothing). -/
def runTimeout (w d k : Nat) : TimeoutState :=
  (List.range k).foldl (pollTimeout w d) initState

/-- Closed form of `runTimeout`: while `k ≤ min w d` neither branch is ready;
afterwards the race has resolved at tick `min w d`, the work branch winning
ties because `Select` polls it first. -/
def timeoutSpec (w d k : Nat) : TimeoutState :=
  if k = 0 then initState
  else if k ≤ min w d then
    { factoryCount := 1, factoryTick := some 0, onTimeoutCount := 0,
      workPolls := k, delayPolls := k, resolved := none,
      winnerIsWork := none, outcome := none }
  else if w ≤ d then
    { factoryCount := 1, factoryTick := some 0, onTimeoutCount := 0,
      workPolls := w + 1, delayPolls := w, resolved := some w,
      winnerIsWork := some true, outcome := some (Except.ok ()) }
  else
    { factoryCount := 1, factoryTick := some 0, onTimeoutCount := 1,
      workPolls := d + 1, delayPolls := d + 1, resolved := some d,
      winnerIsWork := some false, outcome := some (Except.ok ()) }

lemma runTimeout_succ (w d k : Nat) :
    runTimeout w d (k + 1) = pollTimeout w d (runTimeout w d k) k := by
  simp [runTimeout, List.range_succ]

lemma pollTimeout_step (w d k : Nat) :
    pollTimeout w d (timeoutSpec w d k) k = timeoutSpec w d (k + 1) := by
  rcases Nat.eq_zero_or_pos k with h0 | hpos
  · subst h0
    by_cases hw : w = 0
    · subst hw
      have h1 : ¬ (1 ≤ min 0 d) := by omega
      simp [timeoutSpec, pollTimeout, initState, h1, Nat.zero_le]
    · by_cases hd : d = 0
      · subst hd
        have hw0 : ¬ (w ≤ 0) := by omega
        have h1 : ¬ (1 ≤ min w 0) := by omega
        simp [timeoutSpec, pollTimeout, initState, hw0, h1]
      · have hw0 : ¬ (w ≤ 0) := by omega
        have hd0 : ¬ (d ≤ 0) := by omega
        have h1 : 1 ≤ min w d := by omega
        simp [timeoutSpec, pollTimeout, initState, hw0, hd0, h1]
  · have hk0 : k ≠ 0 := by omega
    by_cases hle : k ≤ min w d
    · -- not yet resolved at the start of tick k
      by_cases hkm : k = min w d
      · by_cases hwd : w ≤ d
        · have hkeq : k = w := by omega
          subst hkeq
          have h1 : k ≤ min k d := by omega
          have h2 : ¬ (k + 1 ≤ min k d) := by omega
          simp [timeoutSpec, pollTimeout, hk0, h1, h2, hwd]
        · have hkeq : k = d := by omega
          subst hkeq
          have h1 : k ≤ min w k := by omega
          have h2 : ¬ (k + 1 ≤ min w k) := by omega
          have h3 : ¬ (w ≤ k) := by omega
          simp [timeoutSpec, pollTimeout, hk0, h1, h2, h3, hwd]
      · have hlt : k < min w d := by omega
        have h1 : k + 1 ≤ min w d := by omega
        have h2 : ¬ (w ≤ k) := by omega
        have h3 : ¬ (d ≤ k) := by omega
        simp [timeoutSpec, pollTimeout, hk0, hle, h1, h2, h3]
    · -- already resolved: the future was dropped, later ticks are no-ops
      by_cases hwd : w ≤ d
      · have hminw : min w d = w := by omega
        have h2 : ¬ (k ≤ w) := by omega
        have h3 : ¬ (k + 1 ≤ w) := by omega
        simp [timeoutSpec, pollTimeout, hk0, hminw, h2, h3, hwd]
      · have hmind : min w d = d := by omega
        have h2 : ¬ (k ≤ d) := by omega
        have h3 : ¬ (k + 1 ≤ d) := by omega
        simp [timeoutSpec, pollTimeout, hk0, hmind, h2, h3, hwd]

/-- `runTimeout` agrees with its closed form at every poll count. -/
lemma runTimeout_eq (w d k : Nat) : runTimeout w d k = timeoutSpec w d k := by
  induction k with
  | zero => rfl
  | succ k ih => rw [runTimeout_succ, ih, pollTimeout_step]

/-- A submitted unit of work (`R: IntoFuture<Item=(), Error=()>`), observed
through its effect on a caller-visible state `σ`: driving the future to
completion transforms the state and yields `Ok(())` or `Err(())`. -/
structure WorkUnit (σ : Type) where
  run : σ → σ × Except Unit Unit

/-- The `Mode` enum: `Tokio(TaskExecutor)`, `Sync`, `ThreadPerFuture`.
`E` abstracts `TaskExecutor`, the cloneable handle to the engine. -/
inductive Mode (E : Type) where
  | Tokio (executor : E)
  | Sync
  | ThreadPerFuture
  deriving Repr, DecidableEq

/-- The `Remote` dispatcher: wraps exactly one `Mode`. -/
structure Remote (E : Type) where
  inner : Mode E
  deriving Repr, DecidableEq

/-- `Remote::new_sync()`. -/
def Remote.new_sync {E : Type} : Remote E := { inner := Mode.Sync }

/-- `Remote::new_thread_per_future()`. -/
def Remote.new_thread_per_future {E : Type} : Remote E :=
  { inner := Mode.ThreadPerFuture }

/-- `Remote::new(remote)`: remote for an existing event loop. -/
def Remote.new {E : Type} (remote : E) : Remote E :=
  { inner := Mode.Tokio remote }

/-- What a `spawn`-family call produces, as seen by the submitter:
`callerState` is the caller-visible state at the instant the call returns
(the Rust functions all return `()`; any further information would have to
flow through side effects), and `background` lists the effects handed to the
engine (`Mode::Tokio`) or to freshly spawned threads (`Mode::ThreadPerFuture`),
to run concurrently after the call has returned. -/
structure Dispatch (σ : Type) where
  callerState : σ
  background : List (σ → σ)

/-- `Remote::spawn(r)` (lines 146-161): `Tokio` hands `r.into_future()` to the
engine and returns; `Sync` runs `let _ = r.into_future().wait()` on the
calling thread, discarding the `Result`; `ThreadPerFuture` spawns a thread
that runs `let _ = r.into_future().wait()` and returns immediately. -/
def Remote.spawn {E σ : Type} (self : Remote E) (r : WorkUnit σ) (s : σ) :
    Dispatch σ :=
  match self.inner with
  | Mode.Tokio _ => { callerState := s, background := [fun st => (r.run st).1] }
  | Mode.Sync => { callerState := (r.run s).1, background := [] }
  | Mode.ThreadPerFuture =>
      { callerState := s, background := [fun st => (r.run st).1] }

/-- `Remote::spawn_fn(f)` (lines 164-180).  A factory is a function from the
state at its invocation site to (state after the factory itself ran, the
work unit it produced).  `Tokio` submits `future::lazy(f)` — `f` runs on the
engine at first poll; `Sync` runs `let _ = future::lazy(f).wait()` — `f` runs
on the calling thread during the call; `ThreadPerFuture` spawns a thread
running `let _ = f().into_future().wait()` — `f` runs on the new thread. -/
def Remote.spawn_fn {E σ : Type} (self : Remote E)
    (f : σ → σ × WorkUnit σ) (s : σ) : Dispatch σ :=
  match self.inner with
  | Mode.Tokio _ =>
      { callerState := s,
        background := [fun st =>
          let p := f st
          (p.2.run p.1).1] }
  | Mode.Sync =>
      { callerState :=
          (let p := f s
           (p.2.run p.1).1),
        background := [] }
  | Mode.ThreadPerFuture =>
      { callerState := s,
        background := [fun st =>
          let p := f st
          (p.2.run p.1).1] }

/-- Effect of invoking the factory once and driving the produced unit to
completion, starting from state `s` — the caller-visible meaning of one
lazily-started unit of work. -/
def applyFactoryOnce {σ : Type} (f : σ → σ × WorkUnit σ) (s : σ) : σ :=
  let p := f s
  (p.2.run p.1).1

/-- The state after the call has returned and every background effect it
dispatched has also run to completion. -/
def finalState {σ : Type} (dsp : Dispatch σ) : σ :=
  dsp.background.foldl (fun st t => t st) dsp.callerState

/-- Events a lifecycle handle can emit: sending the one-shot completion
signal, or joining the background thread (carrying the join's outcome:
`Except.ok ()` for a normal exit, `Except.error msg` for a panic payload). -/
inductive HEv where
  | signalSent
  | joined (result : Except String Unit)
  deriving Repr, DecidableEq

/-- `EventLoopHandle`: `close: Option<futures::Complete<()>>` is modelled by
`closeSig` (populated or already taken; the sender itself carries no data)
and `handle: Option<thread::JoinHandle<()>>` by `handle`, whose payload is
the outcome the join would report (normal exit or panic payload). -/
structure EventLoopHandle where
  closeSig : Option Unit
  handle : Option (Except String Unit)
  deriving Repr, DecidableEq

/-- `Drop for EventLoopHandle` (lines 217-221):
`self.close.take().map(|v| v.send(()))` — takes the signal slot and sends
exactly when it was still populated; never touches the join token, never
joins.  Returns the handle's fields after the drop ran plus the emitted
events. -/
def EventLoopHandle.drop (self : EventLoopHandle) :
    EventLoopHandle × List HEv :=
  match self.closeSig with
  | some _ => ({ self with closeSig := none }, [HEv.signalSent])
  | none => (self, [])

/-- `EventLoopHandle::wait` (lines 223-228): takes the join token,
`expect`s it (`none` models the panic of a failed `expect`: no result),
joins — blocking until the thread finishes, with the join outcome as the
return value — and then, `wait` being consuming, Rust drops `self` (whose
`close` slot `wait` never touched), which sends the completion signal.
Returns the `thread::Result` together with the ordered event trace. -/
def EventLoopHandle.wait (self : EventLoopHandle) :
    Option (Except String Unit × List HEv) :=
  match self.handle with
  | none => none
  | some res =>
      let afterTake : EventLoopHandle := { self with handle := none }
      some (res, HEv.joined res :: afterTake.drop.2)

/-- `EventLoopHandle::close` (lines 230-235): takes the signal slot,
`expect`s it (`none` models the panic when the slot was already emptied),
sends the signal, and then Rust drops the consumed `self` (slot now empty,
so the drop sends nothing). -/
def EventLoopHandle.close (self : EventLoopHandle) : Option (List HEv) :=
  match self.closeSig with
  | none => none
  | some _ =>
      let afterTake : EventLoopHandle := { self with closeSig := none }
      some (HEv.signalSent :: afterTake.drop.2)

/-- The three ways a handle's life can end — `close()` and `wait()` consume
it, and otherwise it is eventually dropped — each with the event trace it
emits (a panicking `expect` aborts before emitting anything further). -/
inductive HandleUse where
  | dropOnly
  | closeIt
  | waitIt
  deriving Repr, DecidableEq

/-- The full event trace of one handle lifetime. -/
def lifetimeEvents (h : EventLoopHandle) : HandleUse → List HEv
  | HandleUse.dropOnly => h.drop.2
  | HandleUse.closeIt => (h.close).getD []
  | HandleUse.waitIt =>
      match h.wait with
      | none => []
      | some (_, evs) => evs

/-- Number of completion-signal sends in a trace. -/
def sigCount (evs : List HEv) : Nat := evs.count HEv.signalSent

/-- `EventLoop`: bundles the `Remote` and the `EventLoopHandle`. -/
structure EventLoop (E : Type) where
  remote : Remote E
  handle : EventLoopHandle

/-- `EventLoop::spawn()` (lines 39-59).  The background thread runs
`Runtime::new().expect(...)`; `engineCtor` is the outcome of that engine
construction, yielding the `TaskExecutor` the thread sends back over the
rendezvous channel.  On failure the `expect` panics the background thread,
the sender is dropped unsent, and `rx.recv().expect(...)` panics the calling
thread: `spawn` produces no `EventLoop` at all (`none`) and no error value.
On success it returns the `EventLoop` holding a `Mode::Tokio` remote and a
fresh handle (both slots populated); `threadOutcome` is the join result the
background thread will eventually report. -/
def EventLoop.spawn {E : Type} (engineCtor : Except String E)
    (threadOutcome : Except String Unit) : Option (EventLoop E) :=
  match engineCtor with
  | Except.error _ => none
  | Except.ok executor =>
      some { remote := { inner := Mode.Tokio executor },
             handle := { closeSig := some (), handle := some threadOutcome } }

/-- `EventLoop::raw_executor` (lines 64-70): returns a clone of the executor
when the mode is `Tokio`, and hits `panic!` (modelled by `none`) otherwise. -/
def EventLoop.raw_executor {E : Type} (self : EventLoop E) : Option E :=
  match self.remote.inner with
  | Mode.Tokio executor => some executor
  | _ => none

/-- Claim C1: `Remote::new_sync().spawn(r)` runs `r` to completion on the
calling thread before returning — the caller state at return is the state
after all of `r`'s side effects, and nothing is deferred to the background;
in particular a counter incremented inside the unit is observed incremented
immediately after the call returns. -/
theorem sync_spawn_runs_inline :
    (∀ (E σ : Type) (r : WorkUnit σ) (s : σ),
        ((Remote.new_sync (E := E)).spawn r s).callerState = (r.run s).1
        ∧ ((Remote.new_sync (E := E)).spawn r s).background = [])
    ∧ (∀ (E : Type) (n : Nat),
        ((Remote.new_sync (E := E)).spawn
          { run := fun c => (c + 1, Except.ok ()) } n).callerState = n + 1) :=
  ⟨fun _ _ _ _ => ⟨rfl, rfl⟩, fun _ _ => rfl⟩

/-- Claim C2: in the `timeout` racer, `on_timeout` runs exactly once if the
delay branch resolves strictly before the work branch (`d < w`, ties going
to the work branch because `Select` polls it first), and never otherwise;
the winning branch is recorded accordingly. -/
theorem timeout_invokes_on_timeout_iff_delay_first (w d k : Nat)
    (hk : min w d < k) :
    (runTimeout w d k).onTimeoutCount = (if d < w then 1 else 0)
    ∧ ((runTimeout w d k).winnerIsWork = some false ↔ d < w)
    ∧ ((runTimeout w d k).winnerIsWork = some true ↔ w ≤ d) := by
  rw [runTimeout_eq]
  by_cases hwd : w ≤ d
  · have hmin : min w d = w := by omega
    have h0 : k ≠ 0 := by omega
    have h1 : ¬ (k ≤ w) := by omega
    have h2 : ¬ (d < w) := by omega
    simp [timeoutSpec, hmin, h0, h1, h2, hwd]
  · have hmin : min w d = d := by omega
    have h0 : k ≠ 0 := by omega
    have h1 : ¬ (k ≤ d) := by omega
    have h2 : d < w := by omega
    simp [timeoutSpec, hmin, h0, h1, h2, hwd]

theorem timeout_invokes_on_timeout_iff_delay_first_witness :
    min 2 5 < 6
    ∧ ((runTimeout 2 5 6).onTimeoutCount = (if 5 < 2 then 1 else 0)
        ∧ ((runTimeout 2 5 6).winnerIsWork = some false ↔ 5 < 2)
        ∧ ((runTimeout 2 5 6).winnerIsWork = some true ↔ 2 ≤ 5)) :=
  ⟨by decide, timeout_invokes_on_timeout_iff_delay_first 2 5 6 (by decide)⟩

/-- Claim C3: the work factory is invoked exactly once and only where the
dispatched unit actually starts executing: in the racer it runs at the first
poll (tick 0), exactly once, whichever branch later wins; `spawn_fn` in
`Sync` mode invokes it on the caller thread during the call, while `Tokio`
and `ThreadPerFuture` leave the caller state untouched at return — the
factory and its unit run in the background, once, as the full run shows
(concretely, a factory incrementing a counter increments it exactly once). -/
theorem spawn_fn_factory_invoked_once_lazily :
    (∀ w d k : Nat, (runTimeout w d (k + 1)).factoryCount = 1
        ∧ (runTimeout w d (k + 1)).factoryTick = some 0)
    ∧ (∀ (E σ : Type) (rm : Remote E) (f : σ → σ × WorkUnit σ) (s : σ),
        finalState (rm.spawn_fn f s) = applyFactoryOnce f s)
    ∧ (∀ (E σ : Type) (ex : E) (f : σ → σ × WorkUnit σ) (s : σ),
        ((Remote.new ex).spawn_fn f s).callerState = s
        ∧ ((Remote.new_thread_per_future (E := E)).spawn_fn f s).callerState = s)
    ∧ (∀ (E σ : Type) (f : σ → σ × WorkUnit σ) (s : σ),
        ((Remote.new_sync (E := E)).spawn_fn f s).callerState
          = applyFactoryOnce f s)
    ∧ (∀ (E : Type) (rm : Remote E) (n : Nat),
        finalState (rm.spawn_fn
          (fun c => (c + 1, { run := fun st => (st, Except.ok ()) })) n)
          = n + 1) := by
  refine ⟨fun w d k => ?_, fun E σ rm f s => ?_, fun E σ ex f s => ⟨rfl, rfl⟩,
    fun E σ f s => rfl, fun E rm n => ?_⟩
  · rw [runTimeout_eq]
    unfold timeoutSpec
    split_ifs <;> simp_all
  · rcases rm with ⟨inner⟩
    cases inner <;> rfl
  · rcases rm with ⟨inner⟩
    cases inner <;> rfl

/-- Claim C4: the completion signal is sent at most once per handle
lifetime: the drop glue sends exactly when the slot is still populated,
never touches the join token and never joins; `close()` on an emptied slot
is the fatal `expect` (no events), on a populated slot it sends exactly
once; and over every complete lifetime (plain drop, `close()`, or `wait()`
— each consuming the handle) at most one signal is ever sent. -/
theorem completion_signal_sent_at_most_once :
    (∀ h : EventLoopHandle,
        h.drop.2 = (if h.closeSig.isSome then [HEv.signalSent] else [])
        ∧ h.drop.1.handle = h.handle
        ∧ (∀ r, h.drop.2.count (HEv.joined r) = 0))
    ∧ (∀ t, EventLoopHandle.close { closeSig := none, handle := t } = none)
    ∧ (∀ t, EventLoopHandle.close { closeSig := some (), handle := t }
        = some [HEv.signalSent])
    ∧ (∀ (h : EventLoopHandle) (use : HandleUse),
        sigCount (lifetimeEvents h use) ≤ 1) := by
  refine ⟨fun h => ?_, fun t => rfl, fun t => rfl, fun h use => ?_⟩
  · rcases h with ⟨cs, hd⟩
    cases cs <;> simp [EventLoopHandle.drop, List.count_cons]
  · rcases h with ⟨cs, hd⟩
    cases use <;> cases cs <;> cases hd <;>
      simp [lifetimeEvents, EventLoopHandle.drop, EventLoopHandle.close,
        EventLoopHandle.wait, sigCount, List.count_cons]

/-- Claim C5: a unit's internal failure is swallowed in every mode: the
entire observable outcome of `spawn` (and `spawn_fn`) is identical for a
unit resolving with `Ok(())` and one resolving with `Err(())` but the same
side effects, and the racer's combined future always resolves with `Ok(())`
(`.then(|_| Ok(()))` collapses both branches and both outcomes). -/
theorem unit_failure_swallowed :
    (∀ (E σ : Type) (rm : Remote E) (eff : σ → σ) (s : σ),
        rm.spawn { run := fun st => (eff st, Except.ok ()) } s
          = rm.spawn { run := fun st => (eff st, Except.error ()) } s)
    ∧ (∀ (E σ : Type) (rm : Remote E) (g : σ → σ × (σ → σ)) (s : σ),
        rm.spawn_fn
            (fun st => ((g st).1,
              { run := fun st2 => ((g st).2 st2, Except.ok ()) })) s
          = rm.spawn_fn
            (fun st => ((g st).1,
              { run := fun st2 => ((g st).2 st2, Except.error ()) })) s)
    ∧ (∀ w d j : Nat,
        (runTimeout w d (min w d + 1 + j)).outcome = some (Except.ok ())) := by
  refine ⟨fun E σ rm eff s => ?_, fun E σ rm g s => ?_, fun w d j => ?_⟩
  · rcases rm with ⟨inner⟩
    cases inner <;> rfl
  · rcases rm with ⟨inner⟩
    cases inner <;> rfl
  · rw [runTimeout_eq]
    unfold timeoutSpec
    split_ifs with h1 h2 h3
    · exact absurd h1 (by omega)
    · exact absurd h2 (by omega)
    · rfl
    · rfl

/-- Claim C6: `wait()` blocks on the join of the background thread and
returns the join outcome as a recoverable result — `Ok(())` on normal exit,
the panic payload as the error otherwise; on every handle produced by
`EventLoop::spawn` (and more generally whenever the join token is present,
which it always is since `wait` is consuming and alone takes it) the
internal `expect` on the token cannot fire. -/
theorem wait_reports_join_outcome :
    (∀ (E : Type) (ex : E) (r : Except String Unit),
        (EventLoop.spawn (Except.ok ex) r).map (fun el => el.handle.wait)
          = some (some (r, [HEv.joined r, HEv.signalSent])))
    ∧ (∀ (c : Option Unit) (t : Except String Unit),
        (EventLoopHandle.wait { closeSig := c, handle := some t }).map Prod.fst
          = some t) :=
  ⟨fun _ _ _ => rfl, fun _ _ => rfl⟩

/-- Claim C7: a failed engine construction is fatal: `EventLoop::spawn`
produces no `EventLoop` at all (the `expect` chain panics; no error value
is surfaced), and every `EventLoop` it does return was built on a
successfully constructed engine. -/
theorem engine_construction_failure_is_fatal :
    (∀ (E : Type) (err : String) (out : Except String Unit),
        EventLoop.spawn (E := E) (Except.error err) out = none)
    ∧ (∀ (E : Type) (ctor : Except String E) (out : Except String Unit)
        (el : EventLoop E),
        EventLoop.spawn ctor out = some el → ∃ ex, ctor = Except.ok ex) := by
  refine ⟨fun E err out => rfl, fun E ctor out el h => ?_⟩
  cases ctor with
  | error e => exact absurd h (by simp [EventLoop.spawn])
  | ok ex => exact ⟨ex, rfl⟩

theorem engine_construction_failure_is_fatal_witness :
    EventLoop.spawn (E := Nat) (Except.error "cannot build runtime")
        (Except.ok ()) = none
    ∧ ∃ ex, (Except.ok 7 : Except String Nat) = Except.ok ex :=
  ⟨engine_construction_failure_is_fatal.1 Nat "cannot build runtime"
      (Except.ok ()),
   engine_construction_failure_is_fatal.2 Nat (Except.ok 7) (Except.ok ())
      { remote := { inner := Mode.Tokio 7 },
        handle := { closeSig := some (), handle := some (Except.ok ()) } }
      rfl⟩

/-- Claim C8: the racer abandons the losing branch: the combined future
resolves at the winner's tick `min w d` (it does not wait for the loser,
which would be ready only at the later tick), and after the resolving poll
neither branch is ever polled again — the state is frozen, the work branch
having been polled through the resolving tick and the delay branch not even
at the resolving tick when the work branch won it. -/
theorem timeout_losing_branch_abandoned (w d k : Nat) (hk : min w d < k) :
    (runTimeout w d k).resolved = some (min w d)
    ∧ (runTimeout w d k).workPolls = min w d + 1
    ∧ (runTimeout w d k).delayPolls
        = (if w ≤ d then min w d else min w d + 1)
    ∧ runTimeout w d k = runTimeout w d (min w d + 1) := by
  rw [runTimeout_eq, runTimeout_eq]
  by_cases hwd : w ≤ d
  · have hmin : min w d = w := by omega
    have h0 : k ≠ 0 := by omega
    have h1 : ¬ (k ≤ w) := by omega
    have h2 : w + 1 ≠ 0 := by omega
    have h3 : ¬ (w + 1 ≤ w) := by omega
    simp [timeoutSpec, hmin, h0, h1, h2, h3, hwd]
  · have hmin : min w d = d := by omega
    have h0 : k ≠ 0 := by omega
    have h1 : ¬ (k ≤ d) := by omega
    have h2 : d + 1 ≠ 0 := by omega
    have h3 : ¬ (d + 1 ≤ d) := by omega
    simp [timeoutSpec, hmin, h0, h1, h2, h3, hwd]

theorem timeout_losing_branch_abandoned_witness :
    min 2 7 < 10
    ∧ ((runTimeout 2 7 10).resolved = some (min 2 7)
        ∧ (runTimeout 2 7 10).workPolls = min 2 7 + 1
        ∧ (runTimeout 2 7 10).delayPolls
            = (if 2 ≤ 7 then min 2 7 else min 2 7 + 1)
        ∧ runTimeout 2 7 10 = runTimeout 2 7 (min 2 7 + 1)) :=
  ⟨by decide, timeout_losing_branch_abandoned 2 7 10 (by decide)⟩

/-- Claim C9: every `EventLoop` returned by `EventLoop::spawn` holds a
`Mode::Tokio` remote, so `raw_executor` never reaches its panic branch on
such a loop and returns the engine's executor handle. -/
theorem spawned_loop_raw_executor_never_panics (E : Type)
    (ctor : Except String E) (out : Except String Unit) (el : EventLoop E)
    (h : EventLoop.spawn ctor out = some el) :
    ∃ ex, ctor = Except.ok ex ∧ el.remote.inner = Mode.Tokio ex
      ∧ el.raw_executor = some ex := by
  cases ctor with
  | error e => exact absurd h (by simp [EventLoop.spawn])
  | ok ex =>
      refine ⟨ex, rfl, ?_, ?_⟩ <;>
      · have hel : el = EventLoop.mk { inner := Mode.Tokio ex }
            { closeSig := some (), handle := some out } := by
          simpa [EventLoop.spawn, eq_comm] using h
        subst hel
        rfl

theorem spawned_loop_raw_executor_never_panics_witness :
    ∃ ex, (Except.ok 7 : Except String Nat) = Except.ok ex
      ∧ (EventLoop.mk { inner := Mode.Tokio 7 }
          { closeSig := some (), handle := some (Except.ok ()) }).remote.inner
            = Mode.Tokio ex
      ∧ (EventLoop.mk { inner := Mode.Tokio 7 }
          { closeSig := some (), handle := some (Except.ok ()) }).raw_executor
            = some ex :=
  spawned_loop_raw_executor_never_panics Nat (Except.ok 7) (Except.ok ())
    (EventLoop.mk { inner := Mode.Tokio 7 }
      { closeSig := some (), handle := some (Except.ok ()) }) rfl

/-- Claim C10: `wait()` mutates only the thread-join token before joining:
the state whose drop glue runs afterwards still carries the caller's
`closeSig` untouched, so the trace is the join event first and the signal
send only afterwards (from the end-of-scope drop of the consumed handle) —
`wait()` alone never requests shutdown before blocking on the join. -/
theorem wait_sends_signal_only_after_join :
    (∀ (c : Option Unit) (t : Except String Unit),
        EventLoopHandle.wait { closeSig := c, handle := some t }
          = some (t, HEv.joined t
              :: (EventLoopHandle.drop { closeSig := c, handle := none }).2))
    ∧ (∀ t, EventLoopHandle.wait { closeSig := some (), handle := some t }
        = some (t, [HEv.joined t, HEv.signalSent]))
    ∧ (∀ t, (EventLoopHandle.wait
        { closeSig := some (), handle := some t }).map
          (fun p => p.2.head?) = some (some (HEv.joined t))) :=
  ⟨fun _ _ => rfl, fun _ => rfl, fun _ => rfl⟩

end Reactor
